import Mathlib

/-!
Shallow embedding of the account-aggregation and risk-derivation core of the
eCollect Enterprise proof of concept.  Text values are modelled as lists of
characters; the JavaScript regular-expression heuristics are embedded as
explicit scanning functions over character lists, faithful to the patterns in
the source (leftmost match, greedy character classes; the character classes of
the patterns are pairwise disjoint from their neighbours, so greedy matching
without backtracking coincides with the JavaScript engine on these patterns).
Monetary amounts parsed by parseFloat from strings with at most two decimals
are modelled as exact rationals.
-/

namespace ECollect

abbrev Str := List Char

/-- JavaScript whitespace class for the purposes of trim and of the patterns. -/
def isSpaceChar (c : Char) : Bool :=
  c = ' ' || c = '\t' || c = '\n' || c = '\r' || c = Char.ofNat 11 || c = Char.ofNat 12

def isDigitChar (c : Char) : Bool :=
  '0' ≤ c && c ≤ '9'

def toLowerStr (s : Str) : Str := s.map Char.toLower

def toUpperStr (s : Str) : Str := s.map Char.toUpper

/-- JavaScript String.trim: strip leading and trailing whitespace. -/
def trimStr (s : Str) : Str :=
  ((s.dropWhile isSpaceChar).reverse.dropWhile isSpaceChar).reverse

/-- Match a literal at the head of the input, returning the rest on success. -/
def matchLit : Str → Str → Option Str
  | s, [] => some s
  | [], _ :: _ => none
  | c :: cs, d :: ds => if c = d then matchLit cs ds else none

/-- Value of a nonempty run of decimal digits (parseInt with base 10). -/
def digitsToNat (s : Str) : Nat :=
  s.foldl (fun acc c => acc * 10 + (c.toNat - '0'.toNat)) 0

def startsWithStr (s pat : Str) : Bool :=
  (matchLit s pat).isSome

/-- JavaScript String.includes: substring containment. -/
def containsSub : Str → Str → Bool
  | [], pat => pat.isEmpty
  | c :: rest, pat => startsWithStr (c :: rest) pat || containsSub rest pat

/-- Try a matcher at each position of the input, leftmost first, as a
JavaScript unanchored regular-expression search does. -/
def searchP {α : Type} (f : Str → Option α) : Str → Option α
  | [] => none
  | c :: rest =>
    match f (c :: rest) with
    | some v => some v
    | none => searchP f rest

/-- Optional single letter s, as in the days question-mark in the patterns. -/
def dropOptS : Str → Str
  | 's' :: rest => rest
  | s => s

/-- The alternative days past due of the first pattern, with flexible
whitespace, applied after the digits and whitespace have been consumed. -/
def matchDaysPastDue (r : Str) : Bool :=
  match matchLit r (String.toList "day") with
  | none => false
  | some r1 =>
    match matchLit ((dropOptS r1).dropWhile isSpaceChar) (String.toList "past") with
    | none => false
    | some r2 => (matchLit (r2.dropWhile isSpaceChar) (String.toList "due")).isSome

/-- First pattern: digits, optional whitespace, then days past due or dpd. -/
def p1At (s : Str) : Option Nat :=
  let digits := s.takeWhile isDigitChar
  if digits.isEmpty then none
  else
    let rest := (s.dropWhile isDigitChar).dropWhile isSpaceChar
    if matchDaysPastDue rest || startsWithStr rest (String.toList "dpd") then
      some (digitsToNat digits)
    else none

def isColonSpace (c : Char) : Bool := c = ':' || isSpaceChar c

/-- A keyword followed by colons or whitespace and a digit run, as in the
second and fourth frontend patterns. -/
def kwColonNumAt (kw : Str) (s : Str) : Option Nat :=
  match matchLit s kw with
  | none => none
  | some r =>
    let digits := (r.dropWhile isColonSpace).takeWhile isDigitChar
    if digits.isEmpty then none else some (digitsToNat digits)

/-- Second pattern: dpd followed by colons or whitespace and digits. -/
def p2At : Str → Option Nat := kwColonNumAt (String.toList "dpd")

/-- Third pattern: digits, optional whitespace, dpd. -/
def p3At (s : Str) : Option Nat :=
  let digits := s.takeWhile isDigitChar
  if digits.isEmpty then none
  else
    let rest := (s.dropWhile isDigitChar).dropWhile isSpaceChar
    if startsWithStr rest (String.toList "dpd") then some (digitsToNat digits) else none

/-- Fourth frontend pattern: delinquent followed by colons or whitespace and
digits. -/
def p4At : Str → Option Nat := kwColonNumAt (String.toList "delinquent")

/-- Fourth backend pattern: digits, whitespace, the literal day-parenthesis-s,
whitespace, overdue. -/
def b4At (s : Str) : Option Nat :=
  let digits := s.takeWhile isDigitChar
  if digits.isEmpty then none
  else
    let r1 := (s.dropWhile isDigitChar).dropWhile isSpaceChar
    match matchLit r1 (String.toList "day(s)") with
    | none => none
    | some r2 =>
      if (matchLit (r2.dropWhile isSpaceChar) (String.toList "overdue")).isSome then
        some (digitsToNat digits)
      else none

/-- Fifth backend pattern: late, whitespace, by, whitespace, digits,
whitespace, day with optional s. -/
def b5At (s : Str) : Option Nat :=
  match matchLit s (String.toList "late") with
  | none => none
  | some r1 =>
    match matchLit (r1.dropWhile isSpaceChar) (String.toList "by") with
    | none => none
    | some r2 =>
      let r3 := r2.dropWhile isSpaceChar
      let digits := r3.takeWhile isDigitChar
      if digits.isEmpty then none
      else
        if (matchLit ((r3.dropWhile isDigitChar).dropWhile isSpaceChar)
              (String.toList "day")).isSome then
          some (digitsToNat digits)
        else none

structure NoteHistory where
  id : Int
  custnumber : Str
  accnumber : Str
  notemade : Str
  owner : Str
  notedate : Str
  notesrc : Str
  noteimp : Str
  reason : Str
  reasondetails : Str
  deriving DecidableEq, Repr

/-- The template literal joining notemade, reason and reasondetails with
single spaces, as both extractors build it. -/
def noteContent (n : NoteHistory) : Str :=
  n.notemade ++ [' '] ++ n.reason ++ [' '] ++ n.reasondetails

def statusKeywords : List (Str × Str) :=
  [ (String.toList "bankruptcy", String.toList "Bankruptcy"),
    (String.toList "legal", String.toList "Legal"),
    (String.toList "promise to pay", String.toList "Promise to Pay"),
    (String.toList "ptp", String.toList "Promise to Pay"),
    (String.toList "paid", String.toList "Paid"),
    (String.toList "dispute", String.toList "Dispute"),
    (String.toList "broken", String.toList "Broken Promise"),
    (String.toList "skip", String.toList "Skip"),
    (String.toList "deceased", String.toList "Deceased"),
    (String.toList "settlement", String.toList "Settlement"),
    (String.toList "arrangement", String.toList "Arrangement") ]

def findKeyword (content : Str) : List (Str × Str) → Option Str
  | [] => none
  | (kw, st) :: rest =>
    if containsSub content kw then some st else findKeyword content rest

/-- extractStatus from the data service: scan the notes in order and return
the status of the first keyword hit, defaulting to Active. -/
def extractStatus : List NoteHistory → Str
  | [] => String.toList "Active"
  | n :: rest =>
    match findKeyword (toLowerStr (noteContent n)) statusKeywords with
    | some st => st
    | none => extractStatus rest

/-- The four frontend patterns tried in order on one content string. -/
def dpdFromContent (c : Str) : Option Nat :=
  match searchP p1At c with
  | some v => some v
  | none =>
    match searchP p2At c with
    | some v => some v
    | none =>
      match searchP p3At c with
      | some v => some v
      | none => searchP p4At c

def notesFirstDPD : List NoteHistory → Option Nat
  | [] => none
  | n :: rest =>
    match dpdFromContent (toLowerStr (noteContent n)) with
    | some v => some v
    | none => notesFirstDPD rest

/-- The note-count fallback used by both extractDPD implementations. -/
def noteCountHeuristic (count : Nat) : Int :=
  if 10 < count then 60 + min ((count : Int) * 3) 120
  else if 5 < count then 30 + (count : Int) * 3
  else 10 + (count : Int) * 2

/-- extractDPD from the frontend data service. -/
def extractDPD (notes : List NoteHistory) : Int :=
  match notesFirstDPD notes with
  | some v => (v : Int)
  | none => noteCountHeuristic notes.length

/-- The five backend patterns tried in order on one content string. -/
def backendDpdFromContent (c : Str) : Option Nat :=
  match searchP p1At c with
  | some v => some v
  | none =>
    match searchP p2At c with
    | some v => some v
    | none =>
      match searchP p3At c with
      | some v => some v
      | none =>
        match searchP b4At c with
        | some v => some v
        | none => searchP b5At c

def backendFirstDPD : List NoteHistory → Option Nat
  | [] => none
  | n :: rest =>
    match backendDpdFromContent (toLowerStr (noteContent n)) with
    | some v => some v
    | none => backendFirstDPD rest

/-- extractDPD from the backend API endpoint. -/
def backendExtractDPD (notes : List NoteHistory) : Int :=
  match backendFirstDPD notes with
  | some v => (v : Int)
  | none => noteCountHeuristic notes.length

structure SMSLog where
  sms_id : Int
  message : Str
  owner : Str
  customer_number : Str
  date_sent : Str
  send_status : Str
  arrears : Str
  phone_number : Str
  deriving DecidableEq, Repr

def isDigitComma (c : Char) : Bool := isDigitChar c || c = ','

/-- The arrears pattern of getSMSStats: the literal kes, an optional dot,
whitespace, a run of digits and thousands separators, and an optional
two-decimal cents part; the captured text has its commas removed and is
parsed as a number, modelled here as an exact rational. -/
def kesAt (s : Str) : Option Rat :=
  match matchLit s (String.toList "kes") with
  | none => none
  | some r1 =>
    let r2 := match r1 with
      | '.' :: rest => rest
      | other => other
    let r3 := r2.dropWhile isSpaceChar
    let body := r3.takeWhile isDigitComma
    if body.isEmpty then none
    else
      let digits := body.filter isDigitChar
      match r3.dropWhile isDigitComma with
      | '.' :: d1 :: d2 :: _ =>
        if isDigitChar d1 && isDigitChar d2 then
          some ((digitsToNat digits : Rat) + (digitsToNat [d1, d2] : Rat) / 100)
        else if digits.isEmpty then none
        else some ((digitsToNat digits : Rat))
      | _ =>
        if digits.isEmpty then none
        else some ((digitsToNat digits : Rat))

/-- The delinquency pattern of getSMSStats: the literal late by with single
spaces, digits, whitespace, day with optional s. -/
def lateByAt (s : Str) : Option Nat :=
  match matchLit s (String.toList "late by ") with
  | none => none
  | some r =>
    let digits := r.takeWhile isDigitChar
    if digits.isEmpty then none
    else
      if (matchLit ((r.dropWhile isDigitChar).dropWhile isSpaceChar)
            (String.toList "day")).isSome then
        some (digitsToNat digits)
      else none

structure SMSStats where
  total : Nat
  successful : Nat
  failed : Nat
  successRate : Nat
  latestArrears : Option Rat
  latestDPD : Option Nat
  lastSentDate : Option Str
  deriving DecidableEq, Repr

/-- getSMSStats from the data service.  The success rate rounds
half-upwards, the exact meaning of the rounded floating division in the
source; the divisions below are over the integers. -/
def getSMSStats (logs : List SMSLog) : SMSStats :=
  let total := logs.length
  let successful := (logs.filter
    (fun s => toLowerStr s.send_status = String.toList "success")).length
  let failed := total - successful
  { total := total
    successful := successful
    failed := failed
    successRate := if 0 < total then (200 * successful + total) / (2 * total) else 0
    latestArrears := logs.findSome? (fun s => searchP kesAt (toLowerStr s.message))
    latestDPD := logs.findSome? (fun s => searchP lateByAt (toLowerStr s.message))
    lastSentDate := match logs with
      | [] => none
      | s :: _ => some s.date_sent }

/-- isValidValue from the data service.  The unknown argument is modelled as
a string, the only value shape its callers pass; the falsy guard of the
source is then the empty-string test. -/
def isValidValue (s : Str) : Bool :=
  if s.isEmpty then false
  else
    let str := toUpperStr (trimStr s)
    if str = [] then false
    else if str = String.toList "NULL" then false
    else if str = String.toList "N/A" then false
    else if str = String.toList "NONE" then false
    else if str = String.toList "UNDEFINED" then false
    else true

inductive RiskLevel
  | LOW
  | HIGH
  | CRITICAL
  deriving DecidableEq, Repr

structure RiskAssessment where
  level : RiskLevel
  color : Str
  bgColor : Str
  borderColor : Str
  deriving DecidableEq, Repr

/-- calculateRisk from riskLogic: rules checked in order, first match wins. -/
def calculateRisk (dpd : Int) (status : Option Str) : RiskAssessment :=
  let normalizedStatus := toLowerStr (status.getD [])
  if 90 < dpd ∨ containsSub normalizedStatus (String.toList "bankruptcy") = true
      ∨ containsSub normalizedStatus (String.toList "legal") = true then
    { level := RiskLevel.CRITICAL
      color := String.toList "text-red-600"
      bgColor := String.toList "bg-red-100"
      borderColor := String.toList "border-red-500" }
  else if 30 < dpd then
    { level := RiskLevel.HIGH
      color := String.toList "text-orange-600"
      bgColor := String.toList "bg-orange-100"
      borderColor := String.toList "border-orange-500" }
  else
    { level := RiskLevel.LOW
      color := String.toList "text-green-600"
      bgColor := String.toList "bg-green-100"
      borderColor := String.toList "border-green-500" }

inductive Source
  | notes
  | sms
  | both
  deriving DecidableEq, Repr

structure Account where
  id : Str
  custnumber : Str
  accnumber : Str
  customerName : Str
  dpd : Int
  status : Str
  lastContact : Str
  noteCount : Nat
  smsCount : Nat
  source : Source
  deriving DecidableEq, Repr

/-- One entry of the unified customer map of fetchAccounts: the accumulated
notes, the accumulated SMS logs, and the distinct account numbers seen, in
insertion order as a JavaScript Set keeps them. -/
structure CustData where
  notes : List NoteHistory
  sms : List SMSLog
  accnumbers : List Str
  deriving DecidableEq, Repr

def emptyCust : CustData := ⟨[], [], []⟩

/-- Insertion-ordered map update: apply f to the entry at k, creating it from
the empty accumulator at the end when absent, as the JavaScript Map does. -/
def updMap (m : List (Str × CustData)) (k : Str) (f : CustData → CustData) :
    List (Str × CustData) :=
  match m with
  | [] => [(k, f emptyCust)]
  | (k2, v) :: rest =>
    if k2 = k then (k2, f v) :: rest else (k2, v) :: updMap rest k f

/-- Add to an insertion-ordered set of account numbers. -/
def addAccNum (accs : List Str) (a : Str) : List Str :=
  if a ∈ accs then accs else accs ++ [a]

/-- The note-grouping step of fetchAccounts. -/
def processNote (m : List (Str × CustData)) (note : NoteHistory) :
    List (Str × CustData) :=
  let custKey := trimStr note.custnumber
  if isValidValue custKey then
    updMap m custKey (fun c =>
      { c with
        notes := c.notes ++ [note]
        accnumbers :=
          if isValidValue note.accnumber then
            addAccNum c.accnumbers (trimStr note.accnumber)
          else c.accnumbers })
  else m

/-- The SMS-grouping step of fetchAccounts. -/
def processSMS (m : List (Str × CustData)) (sms : SMSLog) :
    List (Str × CustData) :=
  let custKey := trimStr sms.customer_number
  if isValidValue custKey then
    updMap m custKey (fun c => { c with sms := c.sms ++ [sms] })
  else m

/-- The unified customer map built by one aggregation pass: all notes are
grouped first, then all SMS logs, as the two forEach loops run in sequence. -/
def buildMap (notesData : List NoteHistory) (smsData : List SMSLog) :
    List (Str × CustData) :=
  smsData.foldl processSMS (notesData.foldl processNote [])

/-- Projection of one customer-map entry into an Account, as the forEach over
the map performs it. -/
def mkAccount (custnumber : Str) (d : CustData) : Account :=
  let source :=
    if 0 < d.notes.length ∧ 0 < d.sms.length then Source.both
    else if 0 < d.notes.length then Source.notes
    else Source.sms
  let accnumber :=
    match d.accnumbers with
    | a :: _ => a
    | [] => String.toList "SMS-" ++ custnumber
  let sdl :=
    match d.notes with
    | n :: _ =>
      (extractStatus d.notes, extractDPD d.notes,
        if n.notedate = [] then String.toList "N/A" else n.notedate)
    | [] =>
      match d.sms with
      | s :: _ =>
        let stats := getSMSStats d.sms
        let dpd : Int :=
          match stats.latestDPD with
          | some v => (v : Int)
          | none => 0
        ((if 30 < dpd then String.toList "SMS Only - Overdue"
          else String.toList "SMS Only"), dpd,
          if s.date_sent = [] then String.toList "N/A" else s.date_sent)
      | [] => (String.toList "Active", 0, String.toList "N/A")
  { id := custnumber
    custnumber := custnumber
    accnumber := accnumber
    customerName := String.toList "Customer " ++ custnumber
    dpd := sdl.2.1
    status := sdl.1
    lastContact := sdl.2.2
    noteCount := d.notes.length
    smsCount := d.sms.length
    source := source }

/-- The account list before the final sort. -/
def rawAccounts (notesData : List NoteHistory) (smsData : List SMSLog) :
    List Account :=
  (buildMap notesData smsData).map (fun p => mkAccount p.1 p.2)

/-- The descending-by-dpd order of the final sort. -/
def dpdGe (a b : Account) : Prop := b.dpd ≤ a.dpd

instance : DecidableRel dpdGe := fun a b => inferInstanceAs (Decidable (b.dpd ≤ a.dpd))

instance : IsTotal Account dpdGe := ⟨fun a b => le_total b.dpd a.dpd⟩

instance : IsTrans Account dpdGe := ⟨fun _ _ _ h1 h2 => le_trans h2 h1⟩

/-- The final sort of fetchAccounts: a stable sort descending by dpd, the
ECMAScript Array sort with the comparator of the source. -/
def sortAccounts (l : List Account) : List Account :=
  l.insertionSort dpdGe

/-- The pure aggregation pass of fetchAccounts, applied to already-fetched
notes and SMS rows. -/
def aggregateAccounts (notesData : List NoteHistory) (smsData : List SMSLog) :
    List Account :=
  sortAccounts (rawAccounts notesData smsData)

/-- Convenience constructor for concrete note rows used in tests. -/
def mkNote (cust acc txt date : String) : NoteHistory :=
  ⟨0, cust.toList, acc.toList, txt.toList, [], date.toList, [], [], [], []⟩

/-- Convenience constructor for concrete SMS rows used in tests. -/
def mkSMS (cust msg sendStatus date : String) : SMSLog :=
  ⟨0, msg.toList, [], cust.toList, date.toList, sendStatus.toList, [], []⟩

def note45 : NoteHistory := mkNote "C1" "A1" "customer is 45 DPD" "2024-01-01"

def bankruptNote : NoteHistory :=
  mkNote "C1" "A1" "Customer filed for BANKRUPTCY" "2024-01-01"

def delinquentNote : NoteHistory := mkNote "C1" "A1" "delinquent: 45" "2024-01-01"

def plainNote : NoteHistory := mkNote "C1" "A1" "routine call" "2024-01-01"

def nullNote : NoteHistory := mkNote "NuLl" "A1" "routine call" "2024-01-01"

def nullSMS : SMSLog := mkSMS "null" "hello" "Success" "2024-01-02"

def plainSMS : SMSLog := mkSMS "C1" "hello" "Success" "2024-01-02"

def scenarioCLogs : List SMSLog :=
  [ mkSMS "C3" "first" "Success" "2024-01-03",
    mkSMS "C3" "second" "Success" "2024-01-02",
    mkSMS "C3" "third" "Failed" "2024-01-01" ]

/-- The account one aggregation pass builds for a customer present in both
sources, used as a concrete instance. -/
def bothAccount : Account :=
  mkAccount (String.toList "C1")
    ⟨[plainNote], [plainSMS], [String.toList "A1"]⟩

/-- The account one aggregation pass builds for a notes-only customer, used
as a concrete instance. -/
def notesOnlyAccount : Account :=
  mkAccount (String.toList "C1") ⟨[note45], [], [String.toList "A1"]⟩

/-- The sixteen letter-case variants of the placeholder word null. -/
def nullCaseVariants : List Str :=
  [ String.toList "null", String.toList "nulL", String.toList "nuLl",
    String.toList "nuLL", String.toList "nUll", String.toList "nUlL",
    String.toList "nULl", String.toList "nULL", String.toList "Null",
    String.toList "NulL", String.toList "NuLl", String.toList "NuLL",
    String.toList "NUll", String.toList "NUlL", String.toList "NULl",
    String.toList "NULL" ]


/-- The risk level of calculateRisk as a single first-match-wins expression. -/
theorem calculateRisk_level (dpd : Int) (status : Option Str) :
    (calculateRisk dpd status).level =
      if 90 < dpd
          ∨ containsSub (toLowerStr (status.getD [])) (String.toList "bankruptcy") = true
          ∨ containsSub (toLowerStr (status.getD [])) (String.toList "legal") = true then
        RiskLevel.CRITICAL
      else if 30 < dpd then RiskLevel.HIGH
      else RiskLevel.LOW := by
  unfold calculateRisk
  dsimp only
  split_ifs <;> rfl

/-- Claim C1: calculateRisk evaluates its rules in order with first match
wins, returning CRITICAL when dpd exceeds 90 or the lower-cased status
contains bankruptcy or legal, otherwise HIGH when dpd exceeds 30, otherwise
LOW; in particular with status Active any dpd above 90 is CRITICAL, dpd in
31..90 is HIGH, and dpd at most 30 with a status containing neither keyword
is LOW. -/
theorem claim_c1 :
    (∀ (dpd : Int) (status : Str),
      (calculateRisk dpd (some status)).level =
        if 90 < dpd ∨ containsSub (toLowerStr status) (String.toList "bankruptcy") = true
            ∨ containsSub (toLowerStr status) (String.toList "legal") = true then
          RiskLevel.CRITICAL
        else if 30 < dpd then RiskLevel.HIGH
        else RiskLevel.LOW)
    ∧ (∀ dpd : Int, 90 < dpd →
        (calculateRisk dpd (some (String.toList "Active"))).level = RiskLevel.CRITICAL)
    ∧ (∀ dpd : Int, 31 ≤ dpd → dpd ≤ 90 →
        (calculateRisk dpd (some (String.toList "Active"))).level = RiskLevel.HIGH)
    ∧ (∀ (dpd : Int) (status : Str), dpd ≤ 30 →
        containsSub (toLowerStr status) (String.toList "bankruptcy") = false →
        containsSub (toLowerStr status) (String.toList "legal") = false →
        (calculateRisk dpd (some status)).level = RiskLevel.LOW) := by
  refine ⟨?_, ?_, ?_, ?_⟩
  · intro dpd status
    exact calculateRisk_level dpd (some status)
  · intro dpd h
    rw [calculateRisk_level]
    exact if_pos (Or.inl h)
  · intro dpd h1 h2
    rw [calculateRisk_level]
    rw [if_neg, if_pos (by omega)]
    rintro (h | h | h)
    · omega
    · exact absurd h (by decide)
    · exact absurd h (by decide)
  · intro dpd status h1 h2 h3
    rw [calculateRisk_level]
    rw [if_neg, if_neg (by omega)]
    rintro (h | h | h)
    · omega
    · simp only [Option.getD_some] at h
      rw [h2] at h
      exact absurd h (by decide)
    · simp only [Option.getD_some] at h
      rw [h3] at h
      exact absurd h (by decide)

theorem claim_c1_witness :
    (calculateRisk 100 (some (String.toList "Active"))).level = RiskLevel.CRITICAL
    ∧ (calculateRisk 45 (some (String.toList "Active"))).level = RiskLevel.HIGH
    ∧ (calculateRisk 10 (some (String.toList "Active"))).level = RiskLevel.LOW :=
  ⟨claim_c1.2.1 100 (by decide),
   claim_c1.2.2.1 45 (by decide) (by decide),
   claim_c1.2.2.2 10 (String.toList "Active") (by decide) (by decide) (by decide)⟩

/-- Claim C2: extractStatus returns the mapped status of the first
note-and-keyword hit in scan order, defaulting to Active, and any list
starting with a note whose text contains bankruptcy in any case yields
Bankruptcy regardless of the later notes. -/
theorem claim_c2 :
    (∀ notes : List NoteHistory,
      extractStatus notes =
        (notes.findSome?
          (fun n => findKeyword (toLowerStr (noteContent n)) statusKeywords)).getD
          (String.toList "Active"))
    ∧ (∀ (N : NoteHistory) (rest : List NoteHistory),
        containsSub (toLowerStr (noteContent N)) (String.toList "bankruptcy") = true →
        extractStatus (N :: rest) = String.toList "Bankruptcy") := by
  constructor
  · intro notes
    induction notes with
    | nil => rfl
    | cons n rest ih =>
      rw [extractStatus, List.findSome?]
      cases h : findKeyword (toLowerStr (noteContent n)) statusKeywords with
      | some st => rfl
      | none => exact ih
  · intro N rest h
    rw [extractStatus]
    rw [show findKeyword (toLowerStr (noteContent N)) statusKeywords
          = some (String.toList "Bankruptcy") by
        rw [statusKeywords, findKeyword, if_pos h]]

theorem claim_c2_witness :
    extractStatus [bankruptNote, plainNote] = String.toList "Bankruptcy" :=
  claim_c2.2 bankruptNote [plainNote] (by decide)

/-- The note scan of extractDPD is a first-hit search over the notes. -/
theorem notesFirstDPD_eq_findSome (notes : List NoteHistory) :
    notesFirstDPD notes
      = notes.findSome? (fun n => dpdFromContent (toLowerStr (noteContent n))) := by
  induction notes with
  | nil => rfl
  | cons n rest ih =>
    rw [notesFirstDPD, List.findSome?]
    cases h : dpdFromContent (toLowerStr (noteContent n)) with
    | some v => rfl
    | none => exact ih

/-- Claim C3: extractDPD returns the first captured integer of the ordered
pattern scan over the notes, and otherwise exactly the note-count heuristic
with its clamp. -/
theorem claim_c3 :
    (∀ notes : List NoteHistory,
      extractDPD notes =
        match notes.findSome? (fun n => dpdFromContent (toLowerStr (noteContent n))) with
        | some v => (v : Int)
        | none =>
          if 10 < notes.length then 60 + min ((notes.length : Int) * 3) 120
          else if 5 < notes.length then 30 + (notes.length : Int) * 3
          else 10 + (notes.length : Int) * 2)
    ∧ extractDPD [note45] = 45 := by
  constructor
  · intro notes
    rw [extractDPD, notesFirstDPD_eq_findSome]
    cases h : notes.findSome? (fun n => dpdFromContent (toLowerStr (noteContent n))) with
    | some v => rfl
    | none => rfl
  · decide

/-- Claim C10: extractDPD on the empty note list lands in the heuristic
branch with count zero and returns 10, not 0. -/
theorem claim_c10 : extractDPD [] = 10 ∧ extractDPD [] ≠ 0 := by
  constructor
  · rfl
  · decide

/-- Counterexample to claim C4: on a note reading delinquent: 45 the
frontend extractDPD captures 45 through its delinquent pattern, while the
backend extractDPD has no such pattern and falls back to the note-count
heuristic, returning 12. -/
theorem claim_c4_cex :
    extractDPD [delinquentNote] = 45
    ∧ backendExtractDPD [delinquentNote] = 12
    ∧ extractDPD [delinquentNote] ≠ backendExtractDPD [delinquentNote] := by
  refine ⟨by decide, by decide, by decide⟩

/-- On a content string where the divergent patterns all fail, the two
pattern chains coincide on their shared first three patterns. -/
theorem dpdContent_agree (c : Str) (h4 : searchP p4At c = none)
    (hb4 : searchP b4At c = none) (hb5 : searchP b5At c = none) :
    dpdFromContent c = backendDpdFromContent c := by
  unfold dpdFromContent backendDpdFromContent
  rw [h4, hb4, hb5]

/-- Claim C4 amended: the frontend and backend extractDPD agree on every
note list in which no note text matches the frontend-only delinquent
pattern or the backend-only overdue and late-by patterns; on other inputs
they can diverge, as the counterexample shows. -/
theorem claim_c4_amended (notes : List NoteHistory)
    (h : ∀ n ∈ notes,
      searchP p4At (toLowerStr (noteContent n)) = none
      ∧ searchP b4At (toLowerStr (noteContent n)) = none
      ∧ searchP b5At (toLowerStr (noteContent n)) = none) :
    extractDPD notes = backendExtractDPD notes := by
  have hfirst : notesFirstDPD notes = backendFirstDPD notes := by
    induction notes with
    | nil => rfl
    | cons n rest ih =>
      obtain ⟨h4, hb4, hb5⟩ := h n (List.mem_cons_self n rest)
      rw [notesFirstDPD, backendFirstDPD, dpdContent_agree _ h4 hb4 hb5]
      cases hc : backendDpdFromContent (toLowerStr (noteContent n)) with
      | some v => rfl
      | none => exact ih (fun m hm => h m (List.mem_cons_of_mem n hm))
  rw [extractDPD, backendExtractDPD, hfirst]

theorem claim_c4_amended_witness :
    extractDPD [note45] = backendExtractDPD [note45] :=
  claim_c4_amended [note45] (by decide)

/-- A note whose trimmed customer key fails the validity filter leaves the
customer map unchanged. -/
theorem processNote_invalid (m : List (Str × CustData)) (note : NoteHistory)
    (h : isValidValue (trimStr note.custnumber) = false) :
    processNote m note = m := by
  simp [processNote, h]

/-- An SMS row whose trimmed customer key fails the validity filter leaves
the customer map unchanged. -/
theorem processSMS_invalid (m : List (Str × CustData)) (sms : SMSLog)
    (h : isValidValue (trimStr sms.customer_number) = false) :
    processSMS m sms = m := by
  simp [processSMS, h]

/-- Claim C8: isValidValue rejects exactly the empty value and the values
whose trimmed upper-cased form is empty, NULL, N/A, NONE or UNDEFINED; as a
consequence a record whose customer identifier is the word null in any
letter case is dropped by the grouping of either source. -/
theorem claim_c8 :
    (∀ s : Str, isValidValue s = false ↔
      (s = [] ∨ toUpperStr (trimStr s) = []
        ∨ toUpperStr (trimStr s) = String.toList "NULL"
        ∨ toUpperStr (trimStr s) = String.toList "N/A"
        ∨ toUpperStr (trimStr s) = String.toList "NONE"
        ∨ toUpperStr (trimStr s) = String.toList "UNDEFINED"))
    ∧ (∀ (m : List (Str × CustData)) (note : NoteHistory),
        note.custnumber ∈ nullCaseVariants → processNote m note = m)
    ∧ (∀ (m : List (Str × CustData)) (sms : SMSLog),
        sms.customer_number ∈ nullCaseVariants → processSMS m sms = m) := by
  have hall : ∀ v ∈ nullCaseVariants, isValidValue (trimStr v) = false := by decide
  refine ⟨?_, ?_, ?_⟩
  · intro s
    cases s with
    | nil => simp [isValidValue]
    | cons c cs =>
      simp only [isValidValue, List.isEmpty_cons, Bool.false_eq_true, if_false]
      split_ifs with h1 h2 h3 h4 h5 <;> simp_all
  · intro m note h
    exact processNote_invalid m note (hall _ h)
  · intro m sms h
    exact processSMS_invalid m sms (hall _ h)

theorem claim_c8_witness :
    processNote [] nullNote = [] ∧ processSMS [] nullSMS = [] :=
  ⟨claim_c8.2.1 [] nullNote (by decide), claim_c8.2.2 [] nullSMS (by decide)⟩

/-- The success-rate field spelt out over the list length. -/
theorem getSMSStats_successRate (logs : List SMSLog) :
    (getSMSStats logs).successRate =
      if 0 < logs.length then
        (200 * (getSMSStats logs).successful + logs.length) / (2 * logs.length)
      else 0 := rfl

/-- The integer-division encoding of the success rate is the half-up
rounding of the percentage, the meaning of the rounded division in the
source. -/
theorem rate_eq_round (s t : Nat) (ht : 0 < t) :
    (((200 * s + t) / (2 * t) : Nat) : Int)
      = round ((s : Rat) / (t : Rat) * 100) := by
  rw [round_eq]
  have ht0 : (t : Rat) ≠ 0 := Nat.cast_ne_zero.mpr ht.ne'
  have h1 : (s : Rat) / (t : Rat) * 100 + 1 / 2
      = ((200 * s + t : Nat) : Rat) / ((2 * t : Nat) : Rat) := by
    push_cast
    field_simp
    ring
  rw [h1, Rat.floor_natCast_div_natCast, Int.natCast_div]

/-- Claim C9: getSMSStats counts the list, counts the sends whose status is
case-insensitively success, reports the failures as the difference, and
reports the success rate as the rounded percentage, zero on an empty list;
in particular three messages with two successes give the stats of scenario
C. -/
theorem claim_c9 :
    (∀ logs : List SMSLog,
      (getSMSStats logs).total = logs.length
      ∧ (getSMSStats logs).successful
          = (logs.filter
              (fun s => toLowerStr s.send_status = String.toList "success")).length
      ∧ (getSMSStats logs).failed
          = (getSMSStats logs).total - (getSMSStats logs).successful
      ∧ ((getSMSStats logs).successRate : Int)
          = (if 0 < logs.length then
              round (((getSMSStats logs).successful : Rat)
                / ((getSMSStats logs).total : Rat) * 100)
            else 0))
    ∧ ((getSMSStats scenarioCLogs).total = 3
      ∧ (getSMSStats scenarioCLogs).successful = 2
      ∧ (getSMSStats scenarioCLogs).failed = 1
      ∧ (getSMSStats scenarioCLogs).successRate = 67) := by
  constructor
  · intro logs
    refine ⟨rfl, rfl, rfl, ?_⟩
    by_cases h : 0 < logs.length
    · rw [if_pos h, getSMSStats_successRate, if_pos h]
      exact rate_eq_round _ _ h
    · rw [if_neg h, getSMSStats_successRate, if_neg h]
      rfl
  · exact ⟨by decide, by decide, by decide, by decide⟩

theorem mkAccount_noteCount (k : Str) (d : CustData) :
    (mkAccount k d).noteCount = d.notes.length := rfl

theorem mkAccount_smsCount (k : Str) (d : CustData) :
    (mkAccount k d).smsCount = d.sms.length := rfl

theorem mkAccount_source (k : Str) (d : CustData) :
    (mkAccount k d).source =
      if 0 < d.notes.length ∧ 0 < d.sms.length then Source.both
      else if 0 < d.notes.length then Source.notes
      else Source.sms := rfl

/-- Every account of the pre-sort list is the projection of a customer-map
entry. -/
theorem mem_rawAccounts {a : Account} {notesData : List NoteHistory}
    {smsData : List SMSLog} (ha : a ∈ rawAccounts notesData smsData) :
    ∃ p ∈ buildMap notesData smsData, a = mkAccount p.1 p.2 := by
  obtain ⟨p, hp, h⟩ := List.mem_map.mp ha
  exact ⟨p, hp, h.symm⟩

theorem mem_aggregateAccounts {a : Account} {notesData : List NoteHistory}
    {smsData : List SMSLog} (ha : a ∈ aggregateAccounts notesData smsData) :
    ∃ p ∈ buildMap notesData smsData, a = mkAccount p.1 p.2 := by
  unfold aggregateAccounts sortAccounts at ha
  exact mem_rawAccounts ((List.mem_insertionSort dpdGe).mp ha)

/-- Claim C5: the source tag of every produced account is both exactly when
the accumulated note and SMS lists are both non-empty, notes when only the
note list is, and sms otherwise. -/
theorem claim_c5 (notesData : List NoteHistory) (smsData : List SMSLog)
    (a : Account) (ha : a ∈ aggregateAccounts notesData smsData) :
    (a.source = Source.both ↔ 0 < a.noteCount ∧ 0 < a.smsCount)
    ∧ (a.source = Source.notes ↔ 0 < a.noteCount ∧ a.smsCount = 0)
    ∧ (a.source = Source.sms ↔ a.noteCount = 0) := by
  obtain ⟨p, hp, rfl⟩ := mem_aggregateAccounts ha
  simp only [mkAccount_source, mkAccount_noteCount, mkAccount_smsCount]
  split_ifs with h1 h2 <;> refine ⟨⟨?_, ?_⟩, ⟨?_, ?_⟩, ⟨?_, ?_⟩⟩ <;>
    intro h <;> first
      | omega
      | rfl
      | (exact absurd h (by simp))

theorem claim_c5_witness : bothAccount.source = Source.both :=
  ((claim_c5 [plainNote] [plainSMS] bothAccount (by decide)).1).mpr (by decide)

theorem noteCountHeuristic_nonneg (c : Nat) : 0 ≤ noteCountHeuristic c := by
  rw [noteCountHeuristic]
  split_ifs <;> omega

theorem extractDPD_nonneg (notes : List NoteHistory) : 0 ≤ extractDPD notes := by
  rw [extractDPD]
  cases h : notesFirstDPD notes with
  | some v => exact Int.natCast_nonneg v
  | none => exact noteCountHeuristic_nonneg notes.length

theorem mkAccount_dpd_nonneg (k : Str) (d : CustData) :
    0 ≤ (mkAccount k d).dpd := by
  unfold mkAccount
  cases hn : d.notes with
  | cons n rest =>
    exact extractDPD_nonneg (n :: rest)
  | nil =>
    cases hs : d.sms with
    | cons s rest =>
      dsimp only
      cases (getSMSStats (s :: rest)).latestDPD with
      | some v => exact Int.natCast_nonneg v
      | none => exact le_refl 0
    | nil => exact le_refl 0

/-- Claim C7: every account produced by an aggregation pass carries a
non-negative dpd, whichever of the four dpd sources supplied it. -/
theorem claim_c7 (notesData : List NoteHistory) (smsData : List SMSLog)
    (a : Account) (ha : a ∈ aggregateAccounts notesData smsData) :
    0 ≤ a.dpd := by
  obtain ⟨p, hp, rfl⟩ := mem_aggregateAccounts ha
  exact mkAccount_dpd_nonneg p.1 p.2

theorem claim_c7_witness : 0 ≤ notesOnlyAccount.dpd :=
  claim_c7 [note45] [] notesOnlyAccount (by decide)

/-- Inserting one account keeps the sublist of accounts of any fixed dpd,
because the insertion point skips exactly the strictly larger entries. -/
theorem filter_dpd_orderedInsert (d : Int) (a : Account) (l : List Account) :
    (l.orderedInsert dpdGe a).filter (fun x => x.dpd = d)
      = (a :: l).filter (fun x => x.dpd = d) := by
  induction l with
  | nil => rfl
  | cons b l ih =>
    rw [List.orderedInsert]
    split_ifs with hab
    · rfl
    · have hlt : a.dpd < b.dpd := by
        have := hab
        unfold dpdGe at this
        omega
      by_cases hb : b.dpd = d <;> by_cases ha2 : a.dpd = d
      · omega
      · simp [List.filter_cons, hb, ha2, ih]
      · simp [List.filter_cons, hb, ha2, ih]
      · simp [List.filter_cons, hb, ha2, ih]

/-- The stable sort keeps the sublist of accounts of any fixed dpd. -/
theorem filter_dpd_insertionSort (d : Int) (l : List Account) :
    (l.insertionSort dpdGe).filter (fun x => x.dpd = d)
      = l.filter (fun x => x.dpd = d) := by
  induction l with
  | nil => rfl
  | cons a l ih =>
    rw [List.insertionSort, filter_dpd_orderedInsert, List.filter_cons,
      List.filter_cons, ih]

/-- Claim C6: the aggregation output is sorted by dpd descending and, for
every dpd value, lists its accounts in exactly the grouping-insertion order
of the pre-sort list: the sort is stable on ties. -/
theorem claim_c6 (notesData : List NoteHistory) (smsData : List SMSLog) :
    List.Sorted (fun a b : Account => b.dpd ≤ a.dpd)
      (aggregateAccounts notesData smsData)
    ∧ ∀ d : Int,
        (aggregateAccounts notesData smsData).filter (fun x => x.dpd = d)
          = (rawAccounts notesData smsData).filter (fun x => x.dpd = d) := by
  constructor
  · exact List.sorted_insertionSort dpdGe (rawAccounts notesData smsData)
  · intro d
    exact filter_dpd_insertionSort d (rawAccounts notesData smsData)

end ECollect
